import Mathlib

/-!
Verification of the corporate-card suspicious-activity detection core
(`src/main.py`, with the identical detection section of `src/app.py`).

Shallow embedding conventions:
* A pandas DataFrame row becomes a `Transaction`; `transaction_dt` is the
  `pd.Timestamp` value, i.e. nanoseconds since the Unix epoch, as a `Nat`.
* `pd.Timestamp.now()` is modelled by a clock stream `clock : Nat → Nat`:
  the i-th `now()` call performed while building an alert list returns
  `clock i`.  `run_all_detection` threads the offsets exactly in the order
  the source performs the calls.
* Float arithmetic on time differences (`total_seconds() / 60`) is modelled
  exactly over the integers: `diff ≤ 10` minutes becomes
  `deltaNs ≤ 600 * nsPerSecond`.
* Within `check_sequential_transactions` the frame is sorted by
  (card_holder_id, transaction_dt) before diffs are taken, so group-wise
  time differences are nonnegative and `Nat` subtraction is exact there.
-/

/-- One row of the transaction table (src/main.py `load_data`).  The optional
presentation-only `location_lat`/`location_lon` columns are not consumed by
any detection rule and are omitted.  `transaction_dt` is in nanoseconds since
the epoch (the resolution of `pd.Timestamp`). -/
structure Transaction where
  transaction_id : Nat
  card_holder_id : Nat
  transaction_dt : Nat
  merchant_name : String
  mcc_code : String
  amount : Int
deriving Repr, DecidableEq

/-- One alert dictionary as appended by the detection functions of
src/main.py (fields `transaction_id`, `rule_name`, `severity`, `detail`,
`alert_dt`). -/
structure Alert where
  transaction_id : Nat
  rule_name : String
  severity : String
  detail : String
  alert_dt : Nat
deriving Repr, DecidableEq

/-- An alert minus its generation timestamp `alert_dt`; the deterministic
part of an alert record. -/
structure PreAlert where
  transaction_id : Nat
  rule_name : String
  severity : String
  detail : String
deriving Repr, DecidableEq

/-- Forget the generation timestamp of an alert. -/
def eraseDt (a : Alert) : PreAlert :=
  ⟨a.transaction_id, a.rule_name, a.severity, a.detail⟩

/-- Attach generation timestamps to a list of alert records: the i-th alert
built gets the value of the i-th `pd.Timestamp.now()` call, `clock i`. -/
def stamp (clock : Nat → Nat) (pre : List PreAlert) : List Alert :=
  pre.enum.map (fun p =>
    ⟨p.2.transaction_id, p.2.rule_name, p.2.severity, p.2.detail, clock p.1⟩)

/-- Nanoseconds per second (`pd.Timestamp` resolution). -/
def nsPerSecond : Nat := 1000000000

/-- Nanoseconds per calendar day. -/
def nsPerDay : Nat := 86400 * nsPerSecond

/-- src/main.py line 19: `PROHIBITED_MCCS = ['5813', '7995', '5814']`. -/
def PROHIBITED_MCCS : List String := ["5813", "7995", "5814"]

/-- src/main.py line 20: `HOLIDAY_LIST`, the dates 2025-12-25 and 2026-01-01
as day numbers since the Unix epoch (1970-01-01 = day 0). -/
def HOLIDAY_LIST : List Nat := [20447, 20454]

/-- `tx['transaction_dt'].time()` as nanoseconds within the day. -/
def txTimeNs (tx : Transaction) : Nat := tx.transaction_dt % nsPerDay

/-- `tx['transaction_dt'].date()` as a day number since the epoch. -/
def txDate (tx : Transaction) : Nat := tx.transaction_dt / nsPerDay

/-- `tx['transaction_dt'].weekday()` (Monday = 0 … Sunday = 6); the epoch
day 1970-01-01 was a Thursday, hence the offset 3. -/
def txWeekday (tx : Transaction) : Nat := (txDate tx + 3) % 7

/-- Two-digit zero padding, as in Python `%02d`. -/
def pad2 (n : Nat) : String :=
  if n < 10 then "0" ++ toString n else toString n

/-- Four-digit zero padding, as in Python `%04d`. -/
def pad4 (n : Nat) : String :=
  if n < 10 then "000" ++ toString n
  else if n < 100 then "00" ++ toString n
  else if n < 1000 then "0" ++ toString n
  else toString n

/-- Six-digit zero padding, as in Python `%06d` (microseconds). -/
def pad6 (n : Nat) : String :=
  if n < 10 then "00000" ++ toString n
  else if n < 100 then "0000" ++ toString n
  else if n < 1000 then "000" ++ toString n
  else if n < 10000 then "00" ++ toString n
  else if n < 100000 then "0" ++ toString n
  else toString n

/-- `str(datetime.time)` for a time-of-day given in nanoseconds:
`HH:MM:SS`, with `.ffffff` appended when the microsecond part is nonzero
(`Timestamp.time()` truncates below microseconds). -/
def timeStr (todNs : Nat) : String :=
  let s := todNs / nsPerSecond
  let micro := todNs % nsPerSecond / 1000
  pad2 (s / 3600) ++ ":" ++ pad2 (s % 3600 / 60) ++ ":" ++ pad2 (s % 60) ++
    (if micro = 0 then "" else "." ++ pad6 micro)

/-- `str(datetime.date)` (`YYYY-MM-DD`) for a day number since the epoch;
the standard civil-from-days conversion of the proleptic Gregorian
calendar. -/
def dateStr (day : Nat) : String :=
  let z := day + 719468
  let era := z / 146097
  let doe := z % 146097
  let yoe := (doe - doe / 1460 + doe / 36524 - doe / 146096) / 365
  let doy := doe - (365 * yoe + yoe / 4 - yoe / 100)
  let mp := (5 * doy + 2) / 153
  let d := doy - (153 * mp + 2) / 5 + 1
  let m := if mp < 10 then mp + 3 else mp - 9
  let y := yoe + era * 400 + (if m ≤ 2 then 1 else 0)
  pad4 y ++ "-" ++ pad2 m ++ "-" ++ pad2 d

/-- Python `f"{x:.1f}"` for a nonnegative time difference given in
nanoseconds and displayed in minutes: the value rounded to tenths of a
minute (the exact IEEE tie behaviour of the float formatting is immaterial
here and is modelled as round-half-up). -/
def fmtMin1 (deltaNs : Nat) : String :=
  let tenths := (deltaNs + 3 * nsPerSecond) / (6 * nsPerSecond)
  toString (tenths / 10) ++ "." ++ toString (tenths % 10)

/-- src/main.py lines 24-37, `check_restricted_mcc`, deterministic part:
filter the rows whose `mcc_code` is in `PROHIBITED_MCCS` and emit one
Critical alert per such row. -/
def check_restricted_mcc_pre (df : List Transaction) : List PreAlert :=
  (df.filter (fun tx => tx.mcc_code ∈ PROHIBITED_MCCS)).map (fun tx =>
    ⟨tx.transaction_id, "제한 업종 사용", "Critical",
      "금지된 MCC 코드(" ++ tx.mcc_code ++ ") 사용"⟩)

/-- The late-night predicate of src/main.py line 50:
`tx_time >= time(23, 0) or tx_time < time(6, 0)`. -/
abbrev lateNight (tx : Transaction) : Prop :=
  23 * 3600 * nsPerSecond ≤ txTimeNs tx ∨ txTimeNs tx < 6 * 3600 * nsPerSecond

/-- The holiday/weekend predicate of src/main.py line 59:
`day_of_week >= 5 or tx_date in HOLIDAY_LIST`. -/
abbrev holidayUse (tx : Transaction) : Prop :=
  5 ≤ txWeekday tx ∨ txDate tx ∈ HOLIDAY_LIST

/-- The alerts `check_irregular_time` appends for a single row: a late-night
alert when `lateNight` holds, then a holiday alert when `holidayUse` holds
(src/main.py lines 43-68). -/
def irregularFor (tx : Transaction) : List PreAlert :=
  (if lateNight tx then
    [⟨tx.transaction_id, "심야 시간 사용", "High",
      "사용 시간: " ++ timeStr (txTimeNs tx)⟩]
   else []) ++
  (if holidayUse tx then
    [⟨tx.transaction_id, "휴일 사용", "High",
      "사용 일자: " ++ dateStr (txDate tx)⟩]
   else [])

/-- src/main.py lines 39-68, `check_irregular_time`, deterministic part:
iterate over the rows, appending per-row irregular-time alerts. -/
def check_irregular_time_pre (df : List Transaction) : List PreAlert :=
  df.flatMap irregularFor

/-- The sort key of `df.sort_values(by=['card_holder_id', 'transaction_dt'])`
(src/main.py line 74). -/
def txKey (tx : Transaction) : Nat × Nat :=
  (tx.card_holder_id, tx.transaction_dt)

/-- Lexicographic comparison on `txKey`; the order used by `sort_values`
with the two sort columns. -/
abbrev txLe (a b : Transaction) : Prop :=
  a.card_holder_id < b.card_holder_id ∨
    (a.card_holder_id = b.card_holder_id ∧ a.transaction_dt ≤ b.transaction_dt)

instance : IsTotal Transaction txLe :=
  ⟨fun a b => by simp only [txLe]; omega⟩

instance : IsTrans Transaction txLe :=
  ⟨fun a b c => by simp only [txLe]; omega⟩

/-- `df.sort_values(by=['card_holder_id', 'transaction_dt'])`: pandas sorts
on several columns with a stable lexicographic sort (`np.lexsort`); any
stable sort computes the same list, here an insertion sort. -/
def sortTx (df : List Transaction) : List Transaction :=
  df.insertionSort txLe

/-- `groupby('card_holder_id') ... .shift(1)` evaluated at row `i` of the
frame `df`: the last among the first `i` rows that has the same
`card_holder_id` as `tx`. -/
def prevSameHolder (df : List Transaction) (i : Nat) (tx : Transaction) :
    Option Transaction :=
  ((df.take i).filter
    (fun t => t.card_holder_id == tx.card_holder_id)).getLast?

/-- Pair every row of the frame with its same-holder predecessor (the row
`groupby('card_holder_id').shift(1)` aligns with it); `none` models the NaN
a group's first row receives. -/
def withPrev (df : List Transaction) : List (Transaction × Option Transaction) :=
  df.enum.map (fun p => (p.2, prevSameHolder df p.1 p.2))

/-- The duplicate-merchant row test and alert of src/main.py lines 80-89:
`time_diff <= 10` minutes and equal current/previous merchant name.  A row
whose group-wise diff is NaN (no predecessor) fails the mask, exactly as
`NaN <= 10` is false in pandas. -/
def dupAlert? : Transaction × Option Transaction → Option PreAlert
  | (_, none) => none
  | (c, some prev) =>
    if c.transaction_dt - prev.transaction_dt ≤ 600 * nsPerSecond ∧
        c.merchant_name = prev.merchant_name then
      some ⟨c.transaction_id, "동일 가맹점 연속 결제", "Medium",
        "이전 거래와의 시간차: " ++
          fmtMin1 (c.transaction_dt - prev.transaction_dt) ++ "분"⟩
    else none

/-- The high-risk category-transition row test and alert of src/main.py
lines 92-103: `time_diff <= 30` minutes, previous `mcc_code` equal to
`'5812'` and current `mcc_code` in `['5813', '5814']`. -/
def transAlert? : Transaction × Option Transaction → Option PreAlert
  | (_, none) => none
  | (c, some prev) =>
    if c.transaction_dt - prev.transaction_dt ≤ 1800 * nsPerSecond ∧
        prev.mcc_code = "5812" ∧
        c.mcc_code ∈ (["5813", "5814"] : List String) then
      some ⟨c.transaction_id, "고위험 업종 이동 결제", "High",
        "이전 업종(" ++ prev.mcc_code ++ ")에서 현재 업종(" ++
          c.mcc_code ++ ")으로 전환"⟩
    else none

/-- src/main.py lines 70-104, `check_sequential_transactions`, deterministic
part: sort by (card_holder_id, transaction_dt), compute the group-wise
predecessor of every row, then append all duplicate-merchant alerts in row
order followed by all category-transition alerts in row order. -/
def check_sequential_transactions_pre (df : List Transaction) : List PreAlert :=
  let ps := withPrev (sortTx df)
  ps.filterMap dupAlert? ++ ps.filterMap transAlert?

/-- `check_restricted_mcc` with its `pd.Timestamp.now()` calls. -/
def check_restricted_mcc (clock : Nat → Nat) (df : List Transaction) :
    List Alert :=
  stamp clock (check_restricted_mcc_pre df)

/-- `check_irregular_time` with its `pd.Timestamp.now()` calls. -/
def check_irregular_time (clock : Nat → Nat) (df : List Transaction) :
    List Alert :=
  stamp clock (check_irregular_time_pre df)

/-- `check_sequential_transactions` with its `pd.Timestamp.now()` calls. -/
def check_sequential_transactions (clock : Nat → Nat) (df : List Transaction) :
    List Alert :=
  stamp clock (check_sequential_transactions_pre df)

/-- src/main.py lines 107-119, `run_all_detection`: return `[]` for an empty
frame, otherwise concatenate the outputs of the three rule evaluators in
order.  The clock offsets reflect that the evaluators run sequentially, so
their `now()` calls consume consecutive clock values. -/
def run_all_detection (clock : Nat → Nat) (df : List Transaction) :
    List Alert :=
  if df.isEmpty then []
  else
    let a1 := check_restricted_mcc clock df
    let a2 := check_irregular_time (fun i => clock (a1.length + i)) df
    let a3 := check_sequential_transactions
      (fun i => clock (a1.length + a2.length + i)) df
    a1 ++ a2 ++ a3

/-- The deduplication key of
`alerts_df.drop_duplicates(subset=['transaction_id', 'rule_name'])`
(src/app.py line 206). -/
def alertKey (a : Alert) : Nat × String :=
  (a.transaction_id, a.rule_name)

/-- `drop_duplicates(subset=..., keep='first')`: keep a row when its key has
not been seen yet, in row order. -/
def dropDupByKey (seen : List (Nat × String)) : List Alert → List Alert
  | [] => []
  | a :: rest =>
    if alertKey a ∈ seen then dropDupByKey seen rest
    else a :: dropDupByKey (alertKey a :: seen) rest

/-- src/app.py line 206:
`alerts_df.drop_duplicates(subset=['transaction_id', 'rule_name'])`. -/
def drop_duplicates (xs : List Alert) : List Alert :=
  dropDupByKey [] xs

/-- The aggregation pipeline of src/app.py `__main__` lines 204-206: run all
detection rules, then deduplicate on (transaction_id, rule_name). -/
def alert_pipeline (clock : Nat → Nat) (df : List Transaction) : List Alert :=
  drop_duplicates (run_all_detection clock df)

namespace App

/-!
The detection core of src/app.py (its section 2, marked "변경 없음"),
embedded separately so that the agreement of the two source variants is a
provable statement rather than an assumption.
-/

/-- src/app.py line 57: `PROHIBITED_MCCS = ['5813', '7995', '5814']`. -/
def PROHIBITED_MCCS : List String := ["5813", "7995", "5814"]

/-- src/app.py line 58: `HOLIDAY_LIST`, the dates 2025-12-25 and 2026-01-01
as day numbers since the Unix epoch. -/
def HOLIDAY_LIST : List Nat := [20447, 20454]

/-- src/app.py `check_restricted_mcc`, deterministic part. -/
def check_restricted_mcc_pre (df : List Transaction) : List PreAlert :=
  (df.filter (fun tx => tx.mcc_code ∈ App.PROHIBITED_MCCS)).map (fun tx =>
    ⟨tx.transaction_id, "제한 업종 사용", "Critical",
      "금지된 MCC 코드(" ++ tx.mcc_code ++ ") 사용"⟩)

/-- The per-row alerts of src/app.py `check_irregular_time`. -/
def irregularFor (tx : Transaction) : List PreAlert :=
  (if lateNight tx then
    [⟨tx.transaction_id, "심야 시간 사용", "High",
      "사용 시간: " ++ timeStr (txTimeNs tx)⟩]
   else []) ++
  (if 5 ≤ txWeekday tx ∨ txDate tx ∈ App.HOLIDAY_LIST then
    [⟨tx.transaction_id, "휴일 사용", "High",
      "사용 일자: " ++ dateStr (txDate tx)⟩]
   else [])

/-- src/app.py `check_irregular_time`, deterministic part. -/
def check_irregular_time_pre (df : List Transaction) : List PreAlert :=
  df.flatMap App.irregularFor

/-- src/app.py `check_sequential_transactions`, deterministic part (the
body is character-for-character that of src/main.py). -/
def check_sequential_transactions_pre (df : List Transaction) : List PreAlert :=
  let ps := withPrev (sortTx df)
  ps.filterMap dupAlert? ++ ps.filterMap transAlert?

/-- src/app.py `check_restricted_mcc` with its `pd.Timestamp.now()` calls. -/
def check_restricted_mcc (clock : Nat → Nat) (df : List Transaction) :
    List Alert :=
  stamp clock (App.check_restricted_mcc_pre df)

/-- src/app.py `check_irregular_time` with its `pd.Timestamp.now()` calls. -/
def check_irregular_time (clock : Nat → Nat) (df : List Transaction) :
    List Alert :=
  stamp clock (App.check_irregular_time_pre df)

/-- src/app.py `check_sequential_transactions` with its
`pd.Timestamp.now()` calls. -/
def check_sequential_transactions (clock : Nat → Nat) (df : List Transaction) :
    List Alert :=
  stamp clock (App.check_sequential_transactions_pre df)

/-- src/app.py lines 143-155, `run_all_detection`. -/
def run_all_detection (clock : Nat → Nat) (df : List Transaction) :
    List Alert :=
  if df.isEmpty then []
  else
    let a1 := App.check_restricted_mcc clock df
    let a2 := App.check_irregular_time (fun i => clock (a1.length + i)) df
    let a3 := App.check_sequential_transactions
      (fun i => clock (a1.length + a2.length + i)) df
    a1 ++ a2 ++ a3

end App

/-!
## General lemmas about the embedding

Helper lemmas shared by several claim theorems.
-/

theorem map_eraseDt_stamp (clock : Nat → Nat) (pre : List PreAlert) :
    (stamp clock pre).map eraseDt = pre := by
  unfold stamp
  rw [List.map_map]
  have h : (eraseDt ∘ fun p : Nat × PreAlert =>
      (⟨p.2.transaction_id, p.2.rule_name, p.2.severity, p.2.detail,
        clock p.1⟩ : Alert)) = Prod.snd := rfl
  rw [h]
  exact List.enumFrom_map_snd 0 pre

theorem stamp_map_key (clock : Nat → Nat) (pre : List PreAlert) :
    (stamp clock pre).map alertKey
      = pre.map (fun p => (p.transaction_id, p.rule_name)) := by
  have h : alertKey
      = (fun p : PreAlert => (p.transaction_id, p.rule_name)) ∘ eraseDt := rfl
  rw [h, ← List.map_map, map_eraseDt_stamp]

theorem stamp_exists (clock : Nat → Nat) (pre : List PreAlert)
    (P : PreAlert → Prop) :
    (∃ a ∈ stamp clock pre, P (eraseDt a)) ↔ ∃ p ∈ pre, P p := by
  constructor
  · rintro ⟨a, ha, hP⟩
    refine ⟨eraseDt a, ?_, hP⟩
    rw [← map_eraseDt_stamp clock pre]
    exact List.mem_map_of_mem _ ha
  · rintro ⟨p, hp, hP⟩
    rw [← map_eraseDt_stamp clock pre] at hp
    obtain ⟨a, ha, rfl⟩ := List.mem_map.1 hp
    exact ⟨a, ha, hP⟩

theorem mem_stamp_pre {clock : Nat → Nat} {pre : List PreAlert} {a : Alert}
    (ha : a ∈ stamp clock pre) : eraseDt a ∈ pre := by
  rw [← map_eraseDt_stamp clock pre]
  exact List.mem_map_of_mem _ ha

theorem stamp_filter_length (clock : Nat → Nat) (pre : List PreAlert)
    (p : PreAlert → Bool) :
    ((stamp clock pre).filter (fun a => p (eraseDt a))).length
      = (pre.filter p).length := by
  conv_rhs => rw [← map_eraseDt_stamp clock pre]
  rw [List.filter_map, List.length_map]
  rfl

theorem tid_unique {df : List Transaction}
    (hnd : (df.map Transaction.transaction_id).Nodup) {a b : Transaction}
    (ha : a ∈ df) (hb : b ∈ df)
    (h : a.transaction_id = b.transaction_id) : a = b :=
  List.inj_on_of_nodup_map hnd ha hb h

theorem filter_tid_singleton {df : List Transaction}
    (hnd : (df.map Transaction.transaction_id).Nodup) {tx : Transaction}
    (htx : tx ∈ df) :
    df.filter (fun t => t.transaction_id == tx.transaction_id) = [tx] := by
  induction df with
  | nil => cases htx
  | cons t rest ih =>
    rw [List.map_cons, List.nodup_cons] at hnd
    rcases List.mem_cons.1 htx with rfl | hmem
    · rw [List.filter_cons_of_pos (by simp)]
      have hnil : rest.filter
          (fun u => u.transaction_id == tx.transaction_id) = [] := by
        rw [List.filter_eq_nil_iff]
        intro u hu he
        rw [beq_iff_eq] at he
        exact hnd.1 (he ▸ List.mem_map_of_mem Transaction.transaction_id hu)
      rw [hnil]
    · have hne : ¬((fun u : Transaction =>
          u.transaction_id == tx.transaction_id) t) = true := by
        simp only [beq_iff_eq]
        intro he
        exact hnd.1 (he ▸ List.mem_map_of_mem Transaction.transaction_id hmem)
      rw [@List.filter_cons_of_neg _
        (fun u => u.transaction_id == tx.transaction_id) t rest hne]
      exact ih hnd.2 hmem

theorem flatMap_filter_tid (g : Transaction → List PreAlert)
    (hg : ∀ t, ∀ p ∈ g t, p.transaction_id = t.transaction_id)
    (df : List Transaction) (hnd : (df.map Transaction.transaction_id).Nodup)
    (tx : Transaction) (htx : tx ∈ df) :
    (df.flatMap g).filter
      (fun p => p.transaction_id == tx.transaction_id) = g tx := by
  induction df with
  | nil => cases htx
  | cons t rest ih =>
    rw [List.flatMap_cons, List.filter_append]
    rw [List.map_cons, List.nodup_cons] at hnd
    rcases List.mem_cons.1 htx with rfl | hmem
    · have h1 : (g tx).filter
          (fun p => p.transaction_id == tx.transaction_id) = g tx := by
        rw [List.filter_eq_self]
        intro p hp
        rw [beq_iff_eq]
        exact hg tx p hp
      have h2 : (rest.flatMap g).filter
          (fun p => p.transaction_id == tx.transaction_id) = [] := by
        rw [List.filter_eq_nil_iff]
        intro p hp he
        obtain ⟨u, hu, hpu⟩ := List.mem_flatMap.1 hp
        rw [beq_iff_eq, hg u p hpu] at he
        exact hnd.1 (he ▸ List.mem_map_of_mem Transaction.transaction_id hu)
      rw [h1, h2, List.append_nil]
    · have h1 : (g t).filter
          (fun p => p.transaction_id == tx.transaction_id) = [] := by
        rw [List.filter_eq_nil_iff]
        intro p hp he
        rw [beq_iff_eq, hg t p hp] at he
        exact hnd.1 (he ▸ List.mem_map_of_mem Transaction.transaction_id hmem)
      rw [h1, List.nil_append]
      exact ih hnd.2 hmem

theorem dropDupByKey_subset (xs : List Alert) :
    ∀ (seen : List (Nat × String)), ∀ b ∈ dropDupByKey seen xs, b ∈ xs := by
  induction xs with
  | nil => intro seen b hb; cases hb
  | cons a rest ih =>
    intro seen b hb
    rw [dropDupByKey] at hb
    split at hb
    · exact List.mem_cons_of_mem a (ih seen b hb)
    · rcases List.mem_cons.1 hb with rfl | h
      · exact List.mem_cons_self b rest
      · exact List.mem_cons_of_mem a (ih _ b h)

theorem dropDupByKey_nodup (xs : List Alert) :
    ∀ (seen : List (Nat × String)),
      ((dropDupByKey seen xs).map alertKey).Nodup ∧
        ∀ k ∈ (dropDupByKey seen xs).map alertKey, k ∉ seen := by
  induction xs with
  | nil =>
    intro seen
    exact ⟨List.nodup_nil, fun k hk => absurd hk (List.not_mem_nil k)⟩
  | cons a rest ih =>
    intro seen
    rw [dropDupByKey]
    split
    · exact ih seen
    · rename_i hnot
      obtain ⟨h1, h2⟩ := ih (alertKey a :: seen)
      refine ⟨?_, ?_⟩
      · rw [List.map_cons, List.nodup_cons]
        exact ⟨fun hk => (h2 _ hk) (List.mem_cons_self _ _), h1⟩
      · intro k hk
        rw [List.map_cons] at hk
        rcases List.mem_cons.1 hk with rfl | hk2
        · exact hnot
        · exact fun hseen => (h2 _ hk2) (List.mem_cons_of_mem _ hseen)

theorem dropDupByKey_covers (xs : List Alert) :
    ∀ (seen : List (Nat × String)), ∀ a ∈ xs,
      alertKey a ∈ seen ∨
        ∃ b ∈ dropDupByKey seen xs, alertKey b = alertKey a := by
  induction xs with
  | nil => intro seen a ha; cases ha
  | cons x rest ih =>
    intro seen a ha
    rw [dropDupByKey]
    split
    · rename_i hin
      rcases List.mem_cons.1 ha with rfl | ha2
      · exact Or.inl hin
      · exact ih seen a ha2
    · rcases List.mem_cons.1 ha with rfl | ha2
      · exact Or.inr ⟨a, List.mem_cons_self _ _, rfl⟩
      · rcases ih (alertKey x :: seen) a ha2 with hin | ⟨b, hb, he⟩
        · rcases List.mem_cons.1 hin with he | hseen
          · exact Or.inr ⟨x, List.mem_cons_self _ _, he.symm⟩
          · exact Or.inl hseen
        · exact Or.inr ⟨b, List.mem_cons_of_mem _ hb, he⟩

theorem dropDupByKey_key_congr (xs : List Alert) :
    ∀ (ys : List Alert) (seen : List (Nat × String)),
      xs.map alertKey = ys.map alertKey →
      (dropDupByKey seen xs).map alertKey
        = (dropDupByKey seen ys).map alertKey := by
  induction xs with
  | nil =>
    intro ys seen h
    cases ys with
    | nil => rfl
    | cons y ys => simp at h
  | cons x rest ih =>
    intro ys seen h
    cases ys with
    | nil => simp at h
    | cons y ys =>
      rw [List.map_cons, List.map_cons] at h
      injection h with h1 h2
      rw [dropDupByKey, dropDupByKey, h1]
      split
      · exact ih ys seen h2
      · rw [List.map_cons, List.map_cons, h1, ih ys _ h2]

theorem mem_withPrev {s : List Transaction}
    {q : Transaction × Option Transaction} :
    q ∈ withPrev s ↔ ∃ i, ∃ h : i < s.length,
      s.get ⟨i, h⟩ = q.1 ∧ q.2 = prevSameHolder s i q.1 := by
  unfold withPrev
  rw [List.mem_map]
  constructor
  · rintro ⟨⟨i, t⟩, hp, rfl⟩
    have h2 := List.mk_mem_enum_iff_getElem?.1 hp
    obtain ⟨h, hget⟩ := List.getElem?_eq_some_iff.1 h2
    exact ⟨i, h, by simp [hget], by simp [hget]⟩
  · rintro ⟨i, h, hget, hsnd⟩
    refine ⟨(i, q.1), ?_, ?_⟩
    · apply List.mk_mem_enum_iff_getElem?.2
      rw [List.getElem?_eq_getElem h]
      simp only [← hget, List.get_eq_getElem]
    · rw [← hsnd]

theorem mem_withPrev_fst {s : List Transaction}
    {q : Transaction × Option Transaction} (h : q ∈ withPrev s) : q.1 ∈ s := by
  obtain ⟨i, hi, hget, -⟩ := mem_withPrev.1 h
  exact hget ▸ List.get_mem s i hi

theorem withPrev_snd_unique {s : List Transaction} (hs : s.Nodup)
    {c : Transaction} {o1 o2 : Option Transaction}
    (h1 : (c, o1) ∈ withPrev s) (h2 : (c, o2) ∈ withPrev s) : o1 = o2 := by
  obtain ⟨i, hi, hgi, ho1⟩ := mem_withPrev.1 h1
  obtain ⟨j, hj, hgj, ho2⟩ := mem_withPrev.1 h2
  have hij : (⟨i, hi⟩ : Fin s.length) = ⟨j, hj⟩ :=
    List.nodup_iff_injective_get.1 hs (by rw [hgi, hgj])
  have hij2 : i = j := congrArg Fin.val hij
  subst hij2
  exact ho1.trans ho2.symm

theorem sortTx_perm (df : List Transaction) : (sortTx df).Perm df :=
  List.perm_insertionSort txLe df

theorem sortTx_sorted (df : List Transaction) : (sortTx df).Sorted txLe :=
  List.sorted_insertionSort txLe df

theorem sortTx_nodup_tid {df : List Transaction}
    (hnd : (df.map Transaction.transaction_id).Nodup) :
    ((sortTx df).map Transaction.transaction_id).Nodup :=
  (((sortTx_perm df).map Transaction.transaction_id).nodup_iff).2 hnd

theorem sortTx_nodup {df : List Transaction}
    (hnd : (df.map Transaction.transaction_id).Nodup) : (sortTx df).Nodup :=
  (sortTx_nodup_tid hnd).of_map Transaction.transaction_id

theorem prevSameHolder_zero (s : List Transaction) (tx : Transaction) :
    prevSameHolder s 0 tx = none := by
  simp [prevSameHolder]

theorem prevSameHolder_succ {s : List Transaction} (hs : s.Sorted txLe)
    (i : Nat) (h : i + 1 < s.length) :
    prevSameHolder s (i + 1) (s.get ⟨i + 1, h⟩) =
      if (s.get ⟨i, Nat.lt_of_succ_lt h⟩).card_holder_id
          = (s.get ⟨i + 1, h⟩).card_holder_id
      then some (s.get ⟨i, Nat.lt_of_succ_lt h⟩) else none := by
  have hi : i < s.length := Nat.lt_of_succ_lt h
  unfold prevSameHolder
  rw [List.take_succ, List.getElem?_eq_getElem hi, Option.toList_some,
    List.filter_append]
  by_cases hcase : (s.get ⟨i, hi⟩).card_holder_id
      = (s.get ⟨i + 1, h⟩).card_holder_id
  · rw [if_pos hcase]
    have h1 : [s[i]].filter
        (fun t => t.card_holder_id == (s.get ⟨i + 1, h⟩).card_holder_id)
          = [s[i]] := by
      simp only [List.filter_cons, List.filter_nil]
      rw [if_pos]
      simp only [List.get_eq_getElem] at hcase
      simp [hcase]
    rw [h1, List.getLast?_append]
    simp
  · rw [if_neg hcase]
    have h1 : [s[i]].filter
        (fun t => t.card_holder_id == (s.get ⟨i + 1, h⟩).card_holder_id)
          = [] := by
      simp only [List.filter_cons, List.filter_nil]
      rw [if_neg]
      simp only [List.get_eq_getElem] at hcase
      simp [hcase]
    have h2 : (s.take i).filter
        (fun t => t.card_holder_id == (s.get ⟨i + 1, h⟩).card_holder_id)
          = [] := by
      rw [List.filter_eq_nil_iff]
      intro t ht he
      rw [beq_iff_eq] at he
      have hdi : s[i] ∈ s.drop i := by
        rw [List.drop_eq_getElem_cons hi]
        exact List.mem_cons_self _ _
      have hrel1 : txLe t s[i] :=
        hs.rel_of_mem_take_of_mem_drop ht hdi
      have hrel2 : txLe (s.get ⟨i, hi⟩) (s.get ⟨i + 1, h⟩) :=
        hs.rel_get_of_lt (by simp)
      simp only [List.get_eq_getElem] at hrel2 hcase he
      rcases hrel1 with hlt | ⟨heq1, -⟩ <;>
        rcases hrel2 with hlt2 | ⟨heq2, -⟩ <;> omega
    rw [h1, h2, List.getLast?_append]
    simp

theorem dupAlert?_eq_some {q : Transaction × Option Transaction} {p : PreAlert}
    (h : dupAlert? q = some p) :
    ∃ prev, q.2 = some prev ∧
      q.1.transaction_dt - prev.transaction_dt ≤ 600 * nsPerSecond ∧
      q.1.merchant_name = prev.merchant_name ∧
      p = ⟨q.1.transaction_id, "동일 가맹점 연속 결제", "Medium",
        "이전 거래와의 시간차: " ++
          fmtMin1 (q.1.transaction_dt - prev.transaction_dt) ++ "분"⟩ := by
  rcases q with ⟨c, o⟩
  cases o with
  | none => simp [dupAlert?] at h
  | some prev =>
    refine ⟨prev, rfl, ?_⟩
    simp only [dupAlert?] at h
    split at h
    · rename_i hcond
      injection h with h2
      exact ⟨hcond.1, hcond.2, h2.symm⟩
    · cases h

theorem transAlert?_eq_some {q : Transaction × Option Transaction}
    {p : PreAlert} (h : transAlert? q = some p) :
    ∃ prev, q.2 = some prev ∧
      q.1.transaction_dt - prev.transaction_dt ≤ 1800 * nsPerSecond ∧
      prev.mcc_code = "5812" ∧
      q.1.mcc_code ∈ (["5813", "5814"] : List String) ∧
      p = ⟨q.1.transaction_id, "고위험 업종 이동 결제", "High",
        "이전 업종(" ++ prev.mcc_code ++ ")에서 현재 업종(" ++
          q.1.mcc_code ++ ")으로 전환"⟩ := by
  rcases q with ⟨c, o⟩
  cases o with
  | none => simp [transAlert?] at h
  | some prev =>
    refine ⟨prev, rfl, ?_⟩
    simp only [transAlert?] at h
    split at h
    · rename_i hcond
      injection h with h2
      exact ⟨hcond.1, hcond.2.1, hcond.2.2, h2.symm⟩
    · cases h

theorem dupAlert?_pos {c prev : Transaction}
    (h1 : c.transaction_dt - prev.transaction_dt ≤ 600 * nsPerSecond)
    (h2 : c.merchant_name = prev.merchant_name) :
    dupAlert? (c, some prev) =
      some ⟨c.transaction_id, "동일 가맹점 연속 결제", "Medium",
        "이전 거래와의 시간차: " ++
          fmtMin1 (c.transaction_dt - prev.transaction_dt) ++ "분"⟩ := by
  simp only [dupAlert?]
  rw [if_pos ⟨h1, h2⟩]

theorem transAlert?_pos {c prev : Transaction}
    (h1 : c.transaction_dt - prev.transaction_dt ≤ 1800 * nsPerSecond)
    (h2 : prev.mcc_code = "5812")
    (h3 : c.mcc_code ∈ (["5813", "5814"] : List String)) :
    transAlert? (c, some prev) =
      some ⟨c.transaction_id, "고위험 업종 이동 결제", "High",
        "이전 업종(" ++ prev.mcc_code ++ ")에서 현재 업종(" ++
          c.mcc_code ++ ")으로 전환"⟩ := by
  simp only [transAlert?]
  rw [if_pos ⟨h1, h2, h3⟩]

/-!
## Claim theorems
-/

/-- C8: for the empty transaction collection, `run_all_detection` returns
the empty alert list (the guard `if df.empty: return []` short-circuits
before any rule evaluator runs), and so does the deduplicating pipeline;
zero alerts is a normal value, not an error. -/
theorem empty_input_empty_alerts (clock : Nat → Nat) :
    run_all_detection clock [] = [] ∧ alert_pipeline clock [] = [] :=
  ⟨rfl, rfl⟩

/-- C9: the aggregator is stateless and idempotent; the only
run-to-run-varying input is the `pd.Timestamp.now()` clock, and for any two
clock streams the runs produce alert lists that are equal under the dedup
key (transaction_id, rule_name), both before and after deduplication. -/
theorem detection_idempotent_under_key (clock1 clock2 : Nat → Nat)
    (df : List Transaction) :
    (run_all_detection clock1 df).map alertKey
        = (run_all_detection clock2 df).map alertKey
    ∧ (alert_pipeline clock1 df).map alertKey
        = (alert_pipeline clock2 df).map alertKey := by
  have h : ∀ clock : Nat → Nat, (run_all_detection clock df).map alertKey
      = if df.isEmpty then [] else
          (check_restricted_mcc_pre df ++ check_irregular_time_pre df ++
            check_sequential_transactions_pre df).map
              (fun p => (p.transaction_id, p.rule_name)) := by
    intro clock
    unfold run_all_detection
    split
    · rfl
    · rw [List.map_append, List.map_append, List.map_append, List.map_append]
      unfold check_restricted_mcc check_irregular_time
        check_sequential_transactions
      rw [stamp_map_key, stamp_map_key, stamp_map_key]
  have h1 := (h clock1).trans (h clock2).symm
  exact ⟨h1, dropDupByKey_key_congr _ _ [] h1⟩

/-- C10: the detection cores of src/main.py and src/app.py agree; for every
transaction collection each of the three rule evaluators and the aggregator
produce the same alerts (same transaction_id, rule_name, severity, detail),
ignoring the `alert_dt` generation timestamp. -/
theorem app_main_variants_agree (clock : Nat → Nat) (df : List Transaction) :
    (App.check_restricted_mcc clock df).map eraseDt
        = (check_restricted_mcc clock df).map eraseDt
    ∧ (App.check_irregular_time clock df).map eraseDt
        = (check_irregular_time clock df).map eraseDt
    ∧ (App.check_sequential_transactions clock df).map eraseDt
        = (check_sequential_transactions clock df).map eraseDt
    ∧ (App.run_all_detection clock df).map eraseDt
        = (run_all_detection clock df).map eraseDt :=
  ⟨rfl, rfl, rfl, rfl⟩

/-- C1: for a nonempty transaction collection the aggregator concatenates
the three evaluators' outputs in the order restricted-category,
irregular-time, sequential-pattern; the pipeline then deduplicates on
(transaction_id, rule_name): the result carries at most one alert per key,
is a sub-collection of the concatenation, and keeps one instance for every
key of the concatenation no matter what `alert_dt` timestamps the
duplicates carry. -/
theorem aggregator_concat_dedup (clock : Nat → Nat) (df : List Transaction)
    (h : df ≠ []) :
    (run_all_detection clock df).map eraseDt
        = check_restricted_mcc_pre df ++ check_irregular_time_pre df ++
          check_sequential_transactions_pre df
    ∧ alert_pipeline clock df = drop_duplicates (run_all_detection clock df)
    ∧ ((alert_pipeline clock df).map alertKey).Nodup
    ∧ (∀ b ∈ alert_pipeline clock df, b ∈ run_all_detection clock df)
    ∧ ∀ a ∈ run_all_detection clock df,
        ∃ b ∈ alert_pipeline clock df, alertKey b = alertKey a := by
  refine ⟨?_, rfl, ?_, ?_, ?_⟩
  · unfold run_all_detection
    rw [if_neg (by simpa using h)]
    rw [List.map_append, List.map_append]
    unfold check_restricted_mcc check_irregular_time
      check_sequential_transactions
    rw [map_eraseDt_stamp, map_eraseDt_stamp, map_eraseDt_stamp]
  · exact (dropDupByKey_nodup _ []).1
  · exact fun b hb => dropDupByKey_subset _ [] b hb
  · intro a ha
    rcases dropDupByKey_covers _ [] a ha with hin | hex
    · cases hin
    · exact hex

/-- C1 witness: the pipeline on a concrete one-row frame, with the
hypothesis of nonemptiness discharged by computation. -/
theorem aggregator_concat_dedup_witness :
    (([⟨1, 100, 1766059200000000000, "A", "5813", 100⟩] :
        List Transaction) ≠ [])
    ∧ ((alert_pipeline (fun _ => 0)
        [⟨1, 100, 1766059200000000000, "A", "5813", 100⟩]).map
          alertKey).Nodup :=
  ⟨by decide,
   (aggregator_concat_dedup (fun _ => 0)
     [⟨1, 100, 1766059200000000000, "A", "5813", 100⟩] (by decide)).2.2.1⟩

theorem irregularFor_tid (t : Transaction) (p : PreAlert)
    (hp : p ∈ irregularFor t) : p.transaction_id = t.transaction_id := by
  unfold irregularFor at hp
  rcases List.mem_append.1 hp with h | h
  · split at h
    · rw [List.mem_singleton] at h
      rw [h]
    · cases h
  · split at h
    · rw [List.mem_singleton] at h
      rw [h]
    · cases h

/-- C3: a transaction yields exactly one restricted-category alert when its
`mcc_code` is in the prohibited set and none otherwise, and any
restricted-category alert for it is Critical and names the offending code
in its detail. -/
theorem restricted_mcc_critical_iff (clock : Nat → Nat)
    (df : List Transaction) (tx : Transaction)
    (hnd : (df.map Transaction.transaction_id).Nodup) (htx : tx ∈ df) :
    ((check_restricted_mcc clock df).filter
        (fun a => a.transaction_id == tx.transaction_id)).length
      = (if tx.mcc_code ∈ PROHIBITED_MCCS then 1 else 0)
    ∧ ∀ a ∈ check_restricted_mcc clock df,
        a.transaction_id = tx.transaction_id →
          a.severity = "Critical" ∧ a.rule_name = "제한 업종 사용" ∧
          a.detail = "금지된 MCC 코드(" ++ tx.mcc_code ++ ") 사용" := by
  constructor
  · have hcast : ((check_restricted_mcc clock df).filter
        (fun a => a.transaction_id == tx.transaction_id)).length
        = ((check_restricted_mcc_pre df).filter
            (fun p => p.transaction_id == tx.transaction_id)).length :=
      stamp_filter_length clock (check_restricted_mcc_pre df)
        (fun p => p.transaction_id == tx.transaction_id)
    have hstep : ((check_restricted_mcc_pre df).filter
        (fun p => p.transaction_id == tx.transaction_id)).length
        = ((df.filter (fun t => t.mcc_code ∈ PROHIBITED_MCCS)).filter
            (fun t => t.transaction_id == tx.transaction_id)).length := by
      unfold check_restricted_mcc_pre
      rw [List.filter_map, List.length_map]
      rfl
    rw [hcast, hstep, List.filter_comm, filter_tid_singleton hnd htx]
    by_cases hq : tx.mcc_code ∈ PROHIBITED_MCCS
    · rw [if_pos hq]
      simp [hq]
    · rw [if_neg hq]
      simp [hq]
  · intro a ha htid
    have hp : eraseDt a ∈ check_restricted_mcc_pre df := mem_stamp_pre ha
    unfold check_restricted_mcc_pre at hp
    obtain ⟨t, ht, hfa⟩ := List.mem_map.1 hp
    have htdf : t ∈ df := List.mem_of_mem_filter ht
    have hta : t.transaction_id = a.transaction_id :=
      congrArg PreAlert.transaction_id hfa
    have hteq : t = tx := tid_unique hnd htdf htx (hta.trans htid)
    have hsev : a.severity = "Critical" :=
      (congrArg PreAlert.severity hfa).symm
    have hrn : a.rule_name = "제한 업종 사용" :=
      (congrArg PreAlert.rule_name hfa).symm
    have hdet : a.detail = "금지된 MCC 코드(" ++ t.mcc_code ++ ") 사용" :=
      (congrArg PreAlert.detail hfa).symm
    rw [hteq] at hdet
    exact ⟨hsev, hrn, hdet⟩

/-- C3 witness: one row with prohibited code 7995 yields exactly one alert
for its transaction_id; one row with a code outside the set yields none. -/
theorem restricted_mcc_critical_iff_witness :
    ((check_restricted_mcc (fun _ => 7)
        [⟨1, 100, 1766059200000000000, "A", "7995", 100⟩]).filter
          (fun a => a.transaction_id == 1)).length = 1
    ∧ ((check_restricted_mcc (fun _ => 7)
        [⟨2, 100, 1766059200000000000, "A", "1234", 100⟩]).filter
          (fun a => a.transaction_id == 2)).length = 0 :=
  ⟨(restricted_mcc_critical_iff (fun _ => 7)
      [⟨1, 100, 1766059200000000000, "A", "7995", 100⟩]
      ⟨1, 100, 1766059200000000000, "A", "7995", 100⟩
      (by decide) (by decide)).1,
   (restricted_mcc_critical_iff (fun _ => 7)
      [⟨2, 100, 1766059200000000000, "A", "1234", 100⟩]
      ⟨2, 100, 1766059200000000000, "A", "1234", 100⟩
      (by decide) (by decide)).1⟩

/-- C4: the late-night alert fires for a transaction exactly when its
time-of-day is at or after 23:00 or strictly before 06:00; boundaries are
exact, and the alert carries High severity. -/
theorem late_night_alert_iff (clock : Nat → Nat) (df : List Transaction)
    (tx : Transaction) (hnd : (df.map Transaction.transaction_id).Nodup)
    (htx : tx ∈ df) :
    (∃ a ∈ check_irregular_time clock df,
        a.transaction_id = tx.transaction_id ∧
        a.rule_name = "심야 시간 사용" ∧ a.severity = "High")
      ↔ lateNight tx := by
  have hpre : (∃ p ∈ check_irregular_time_pre df,
      p.transaction_id = tx.transaction_id ∧
      p.rule_name = "심야 시간 사용" ∧ p.severity = "High") ↔ lateNight tx := by
    constructor
    · rintro ⟨p, hp, htid, hrule, -⟩
      obtain ⟨t, ht, hpt⟩ := List.mem_flatMap.1 hp
      rw [irregularFor_tid t p hpt] at htid
      have hteq : t = tx := tid_unique hnd ht htx htid
      rw [← hteq]
      unfold irregularFor at hpt
      rcases List.mem_append.1 hpt with hmem | hmem
      · by_cases hl : lateNight t
        · exact hl
        · rw [if_neg hl] at hmem
          cases hmem
      · by_cases hh : holidayUse t
        · rw [if_pos hh] at hmem
          rw [List.mem_singleton] at hmem
          rw [hmem] at hrule
          have hne : ("휴일 사용" : String) ≠ "심야 시간 사용" := by decide
          exact absurd hrule hne
        · rw [if_neg hh] at hmem
          cases hmem
    · intro hl
      refine ⟨⟨tx.transaction_id, "심야 시간 사용", "High",
        "사용 시간: " ++ timeStr (txTimeNs tx)⟩, ?_, rfl, rfl, rfl⟩
      apply List.mem_flatMap.2
      refine ⟨tx, htx, ?_⟩
      unfold irregularFor
      apply List.mem_append_left
      rw [if_pos hl]
      exact List.mem_singleton.2 rfl
  exact Iff.trans (stamp_exists clock (check_irregular_time_pre df)
    (fun p => p.transaction_id = tx.transaction_id ∧
      p.rule_name = "심야 시간 사용" ∧ p.severity = "High")) hpre

/-- C4 witness: a transaction at exactly 23:00 fires the late-night alert;
one at exactly 06:00 does not. -/
theorem late_night_alert_iff_witness :
    (∃ a ∈ check_irregular_time (fun _ => 3)
        [⟨1, 100, 1766098800000000000, "A", "1111", 10⟩],
      a.transaction_id = 1 ∧
      a.rule_name = "심야 시간 사용" ∧ a.severity = "High")
    ∧ ¬ (∃ a ∈ check_irregular_time (fun _ => 3)
        [⟨2, 100, 1766037600000000000, "A", "1111", 10⟩],
      a.transaction_id = 2 ∧
      a.rule_name = "심야 시간 사용" ∧ a.severity = "High") :=
  ⟨(late_night_alert_iff (fun _ => 3)
      [⟨1, 100, 1766098800000000000, "A", "1111", 10⟩]
      ⟨1, 100, 1766098800000000000, "A", "1111", 10⟩
      (by decide) (by decide)).mpr (by decide),
   fun hx => absurd ((late_night_alert_iff (fun _ => 3)
      [⟨2, 100, 1766037600000000000, "A", "1111", 10⟩]
      ⟨2, 100, 1766037600000000000, "A", "1111", 10⟩
      (by decide) (by decide)).mp hx) (by decide)⟩

/-- C5: the holiday/weekend alert fires for a transaction exactly when its
weekday is Saturday or Sunday or its date is in the fixed holiday list,
with High severity, and the late-night and holiday predicates contribute
independently: the number of irregular-time alerts for the transaction is
the sum of the indicators of the two predicates (0, 1, or 2). -/
theorem holiday_alert_iff_and_count (clock : Nat → Nat)
    (df : List Transaction) (tx : Transaction)
    (hnd : (df.map Transaction.transaction_id).Nodup) (htx : tx ∈ df) :
    ((∃ a ∈ check_irregular_time clock df,
        a.transaction_id = tx.transaction_id ∧
        a.rule_name = "휴일 사용" ∧ a.severity = "High")
      ↔ holidayUse tx)
    ∧ ((check_irregular_time clock df).filter
          (fun a => a.transaction_id == tx.transaction_id)).length
        = ((if lateNight tx then 1 else 0) +
            (if holidayUse tx then 1 else 0)) := by
  constructor
  · have hpre : (∃ p ∈ check_irregular_time_pre df,
        p.transaction_id = tx.transaction_id ∧
        p.rule_name = "휴일 사용" ∧ p.severity = "High") ↔ holidayUse tx := by
      constructor
      · rintro ⟨p, hp, htid, hrule, -⟩
        obtain ⟨t, ht, hpt⟩ := List.mem_flatMap.1 hp
        rw [irregularFor_tid t p hpt] at htid
        have hteq : t = tx := tid_unique hnd ht htx htid
        rw [← hteq]
        unfold irregularFor at hpt
        rcases List.mem_append.1 hpt with hmem | hmem
        · by_cases hl : lateNight t
          · rw [if_pos hl] at hmem
            rw [List.mem_singleton] at hmem
            rw [hmem] at hrule
            have hne : ("심야 시간 사용" : String) ≠ "휴일 사용" := by decide
            exact absurd hrule hne
          · rw [if_neg hl] at hmem
            cases hmem
        · by_cases hh : holidayUse t
          · exact hh
          · rw [if_neg hh] at hmem
            cases hmem
      · intro hh
        refine ⟨⟨tx.transaction_id, "휴일 사용", "High",
          "사용 일자: " ++ dateStr (txDate tx)⟩, ?_, rfl, rfl, rfl⟩
        apply List.mem_flatMap.2
        refine ⟨tx, htx, ?_⟩
        unfold irregularFor
        apply List.mem_append_right
        rw [if_pos hh]
        exact List.mem_singleton.2 rfl
    exact Iff.trans (stamp_exists clock (check_irregular_time_pre df)
      (fun p => p.transaction_id = tx.transaction_id ∧
        p.rule_name = "휴일 사용" ∧ p.severity = "High")) hpre
  · have hcast : ((check_irregular_time clock df).filter
        (fun a => a.transaction_id == tx.transaction_id)).length
        = ((check_irregular_time_pre df).filter
            (fun p => p.transaction_id == tx.transaction_id)).length :=
      stamp_filter_length clock (check_irregular_time_pre df)
        (fun p => p.transaction_id == tx.transaction_id)
    rw [hcast]
    unfold check_irregular_time_pre
    rw [flatMap_filter_tid irregularFor irregularFor_tid df hnd tx htx]
    by_cases h1 : lateNight tx <;> by_cases h2 : holidayUse tx <;>
      simp [irregularFor, h1, h2]

/-- C5 witness: a Saturday 02:00 transaction fires the holiday alert and
carries two irregular-time alerts (late-night and holiday); a Thursday noon
transaction carries none. -/
theorem holiday_alert_iff_and_count_witness :
    (∃ a ∈ check_irregular_time (fun _ => 5)
        [⟨1, 100, 1766196000000000000, "A", "1111", 10⟩],
      a.transaction_id = 1 ∧
      a.rule_name = "휴일 사용" ∧ a.severity = "High")
    ∧ ((check_irregular_time (fun _ => 5)
        [⟨1, 100, 1766196000000000000, "A", "1111", 10⟩]).filter
          (fun a => a.transaction_id == 1)).length = 2
    ∧ ((check_irregular_time (fun _ => 5)
        [⟨2, 100, 1766059200000000000, "A", "1111", 10⟩]).filter
          (fun a => a.transaction_id == 2)).length = 0 :=
  ⟨(holiday_alert_iff_and_count (fun _ => 5)
      [⟨1, 100, 1766196000000000000, "A", "1111", 10⟩]
      ⟨1, 100, 1766196000000000000, "A", "1111", 10⟩
      (by decide) (by decide)).1.mpr (by decide),
   (holiday_alert_iff_and_count (fun _ => 5)
      [⟨1, 100, 1766196000000000000, "A", "1111", 10⟩]
      ⟨1, 100, 1766196000000000000, "A", "1111", 10⟩
      (by decide) (by decide)).2,
   (holiday_alert_iff_and_count (fun _ => 5)
      [⟨2, 100, 1766059200000000000, "A", "1111", 10⟩]
      ⟨2, 100, 1766059200000000000, "A", "1111", 10⟩
      (by decide) (by decide)).2⟩

/-- C2: the sequential-pattern rule sorts by (card_holder_id,
transaction_dt) ascending with a stable sort (the sorted frame is a
permutation of the input, is sorted for the lexicographic key order, and
key-tied rows keep their input order); row 0 has no same-holder
predecessor, the predecessor of row i+1 is row i exactly when row i has the
same card holder and is otherwise absent, and a row without a predecessor
(NaN delta) is excluded from both the duplicate-merchant and the
category-transition checks. -/
theorem sequential_sort_and_prev (df : List Transaction) :
    (sortTx df).Perm df
    ∧ (sortTx df).Sorted txLe
    ∧ (∀ a b : Transaction, txKey a = txKey b →
        List.Sublist [a, b] df → List.Sublist [a, b] (sortTx df))
    ∧ (∀ h0 : 0 < (sortTx df).length,
        prevSameHolder (sortTx df) 0 ((sortTx df).get ⟨0, h0⟩) = none)
    ∧ (∀ (i : Nat) (h : i + 1 < (sortTx df).length),
        prevSameHolder (sortTx df) (i + 1) ((sortTx df).get ⟨i + 1, h⟩) =
          if ((sortTx df).get ⟨i, Nat.lt_of_succ_lt h⟩).card_holder_id
              = ((sortTx df).get ⟨i + 1, h⟩).card_holder_id
          then some ((sortTx df).get ⟨i, Nat.lt_of_succ_lt h⟩) else none)
    ∧ (∀ p ∈ withPrev (sortTx df), p.2 = none →
        dupAlert? p = none ∧ transAlert? p = none) := by
  refine ⟨sortTx_perm df, sortTx_sorted df, ?_, ?_, ?_, ?_⟩
  · intro a b hk hsub
    have hab : txLe a b := by
      unfold txKey at hk
      injection hk with h1 h2
      exact Or.inr ⟨h1, le_of_eq h2⟩
    exact List.pair_sublist_insertionSort hab hsub
  · intro h0
    exact prevSameHolder_zero _ _
  · intro i h
    exact prevSameHolder_succ (sortTx_sorted df) i h
  · rintro ⟨c, o⟩ hp rfl
    exact ⟨rfl, rfl⟩

/-- C2 witness: two key-tied rows keep their input order in the sorted
frame of a concrete two-row collection. -/
theorem sequential_sort_and_prev_witness :
    List.Sublist
      [(⟨1, 100, 1766059200000000000, "A", "1111", 5⟩ : Transaction),
       ⟨2, 100, 1766059200000000000, "B", "2222", 5⟩]
      (sortTx [⟨1, 100, 1766059200000000000, "A", "1111", 5⟩,
               ⟨2, 100, 1766059200000000000, "B", "2222", 5⟩]) :=
  (sequential_sort_and_prev
      [⟨1, 100, 1766059200000000000, "A", "1111", 5⟩,
       ⟨2, 100, 1766059200000000000, "B", "2222", 5⟩]).2.2.1
    ⟨1, 100, 1766059200000000000, "A", "1111", 5⟩
    ⟨2, 100, 1766059200000000000, "B", "2222", 5⟩
    (by decide) (List.Sublist.refl _)

/-- C6: for a row `cur` of the sorted frame whose same-holder predecessor is
`prev`, a duplicate-merchant alert for `cur` exists exactly when the time
delta is at most 10 minutes and the merchant names coincide; such an alert
is attached to the later transaction `cur`, has Medium severity, and its
detail shows the delta rounded to one decimal (so at 10.01 minutes no alert
is emitted). -/
theorem duplicate_merchant_alert_iff (clock : Nat → Nat)
    (df : List Transaction) (cur prev : Transaction)
    (hnd : (df.map Transaction.transaction_id).Nodup)
    (hmem : (cur, some prev) ∈ withPrev (sortTx df)) :
    ((∃ a ∈ check_sequential_transactions clock df,
        a.transaction_id = cur.transaction_id ∧
        a.rule_name = "동일 가맹점 연속 결제")
      ↔ (cur.transaction_dt - prev.transaction_dt ≤ 600 * nsPerSecond ∧
          cur.merchant_name = prev.merchant_name))
    ∧ ∀ a ∈ check_sequential_transactions clock df,
        a.transaction_id = cur.transaction_id →
        a.rule_name = "동일 가맹점 연속 결제" →
          a.severity = "Medium" ∧
          a.detail = "이전 거래와의 시간차: " ++
            fmtMin1 (cur.transaction_dt - prev.transaction_dt) ++ "분" := by
  have hcs : cur ∈ sortTx df := mem_withPrev_fst hmem
  have hchar : ∀ p ∈ check_sequential_transactions_pre df,
      p.transaction_id = cur.transaction_id →
      p.rule_name = "동일 가맹점 연속 결제" →
      (cur.transaction_dt - prev.transaction_dt ≤ 600 * nsPerSecond ∧
        cur.merchant_name = prev.merchant_name) ∧
      p = ⟨cur.transaction_id, "동일 가맹점 연속 결제", "Medium",
        "이전 거래와의 시간차: " ++
          fmtMin1 (cur.transaction_dt - prev.transaction_dt) ++ "분"⟩ := by
    intro p hp htid hrule
    unfold check_sequential_transactions_pre at hp
    rcases List.mem_append.1 hp with hp1 | hp2
    · obtain ⟨q, hq, he⟩ := List.mem_filterMap.1 hp1
      obtain ⟨prev2, hq2, hdelta, hmerch, hpe⟩ := dupAlert?_eq_some he
      have hq1s : q.1 ∈ sortTx df := mem_withPrev_fst hq
      have hptid : p.transaction_id = q.1.transaction_id :=
        congrArg PreAlert.transaction_id hpe
      have hq1c : q.1 = cur :=
        tid_unique (sortTx_nodup_tid hnd) hq1s hcs (hptid.symm.trans htid)
      have hq' : q = (cur, some prev2) := by
        rw [← hq1c, ← hq2]
      rw [hq'] at hq
      have hpp : prev2 = prev :=
        Option.some.inj (withPrev_snd_unique (sortTx_nodup hnd) hq hmem)
      rw [hq1c, hpp] at hdelta hmerch
      rw [hq1c, hpp] at hpe
      exact ⟨⟨hdelta, hmerch⟩, hpe⟩
    · obtain ⟨q, hq, he⟩ := List.mem_filterMap.1 hp2
      obtain ⟨prev2, -, -, -, -, hpe⟩ := transAlert?_eq_some he
      rw [hpe] at hrule
      have hne : ("고위험 업종 이동 결제" : String) ≠ "동일 가맹점 연속 결제" := by
        decide
      exact absurd hrule hne
  constructor
  · constructor
    · intro hex
      obtain ⟨p, hp, htid, hrule⟩ :=
        (stamp_exists clock (check_sequential_transactions_pre df)
          (fun p => p.transaction_id = cur.transaction_id ∧
            p.rule_name = "동일 가맹점 연속 결제")).1 hex
      exact (hchar p hp htid hrule).1
    · intro hcond
      apply (stamp_exists clock (check_sequential_transactions_pre df)
        (fun p => p.transaction_id = cur.transaction_id ∧
          p.rule_name = "동일 가맹점 연속 결제")).2
      refine ⟨⟨cur.transaction_id, "동일 가맹점 연속 결제", "Medium",
        "이전 거래와의 시간차: " ++
          fmtMin1 (cur.transaction_dt - prev.transaction_dt) ++ "분"⟩,
        ?_, rfl, rfl⟩
      unfold check_sequential_transactions_pre
      apply List.mem_append_left
      apply List.mem_filterMap.2
      exact ⟨(cur, some prev), hmem, dupAlert?_pos hcond.1 hcond.2⟩
  · intro a ha htid hrule
    have h2 := hchar (eraseDt a) (mem_stamp_pre ha) htid hrule
    exact ⟨congrArg PreAlert.severity h2.2, congrArg PreAlert.detail h2.2⟩

/-- C6 witness: two same-holder purchases at the same merchant 10 minutes
apart fire the duplicate-merchant alert on the later transaction, and only
on the later one; at 10.01 minutes apart nothing fires. -/
theorem duplicate_merchant_alert_iff_witness :
    (∃ a ∈ check_sequential_transactions (fun _ => 9)
        [⟨1, 100, 1766059200000000000, "COFFEE", "1111", 10⟩,
         ⟨2, 100, 1766059800000000000, "COFFEE", "1111", 12⟩],
      a.transaction_id = 2 ∧ a.rule_name = "동일 가맹점 연속 결제")
    ∧ ¬ (∃ a ∈ check_sequential_transactions (fun _ => 9)
        [⟨1, 100, 1766059200000000000, "COFFEE", "1111", 10⟩,
         ⟨2, 100, 1766059800000000000, "COFFEE", "1111", 12⟩],
      a.transaction_id = 1 ∧ a.rule_name = "동일 가맹점 연속 결제")
    ∧ ¬ (∃ a ∈ check_sequential_transactions (fun _ => 9)
        [⟨1, 100, 1766059200000000000, "COFFEE", "1111", 10⟩,
         ⟨2, 100, 1766059800600000000, "COFFEE", "1111", 12⟩],
      a.transaction_id = 2 ∧ a.rule_name = "동일 가맹점 연속 결제") :=
  ⟨(duplicate_merchant_alert_iff (fun _ => 9)
      [⟨1, 100, 1766059200000000000, "COFFEE", "1111", 10⟩,
       ⟨2, 100, 1766059800000000000, "COFFEE", "1111", 12⟩]
      ⟨2, 100, 1766059800000000000, "COFFEE", "1111", 12⟩
      ⟨1, 100, 1766059200000000000, "COFFEE", "1111", 10⟩
      (by decide) (by decide)).1.mpr (by decide),
   by decide,
   fun hx => absurd ((duplicate_merchant_alert_iff (fun _ => 9)
      [⟨1, 100, 1766059200000000000, "COFFEE", "1111", 10⟩,
       ⟨2, 100, 1766059800600000000, "COFFEE", "1111", 12⟩]
      ⟨2, 100, 1766059800600000000, "COFFEE", "1111", 12⟩
      ⟨1, 100, 1766059200000000000, "COFFEE", "1111", 10⟩
      (by decide) (by decide)).1.mp hx) (by decide)⟩

/-- C7: for a row `cur` of the sorted frame whose same-holder predecessor is
`prev`, a high-risk category-transition alert for `cur` exists exactly when
the time delta is at most 30 minutes, the predecessor's mcc_code is "5812"
and the current mcc_code is "5813" or "5814"; the alert has High severity
and its detail names both codes.  The predecessor is computed per card
holder, so a transaction of a different holder between the two does not
break the pattern. -/
theorem category_transition_alert_iff (clock : Nat → Nat)
    (df : List Transaction) (cur prev : Transaction)
    (hnd : (df.map Transaction.transaction_id).Nodup)
    (hmem : (cur, some prev) ∈ withPrev (sortTx df)) :
    ((∃ a ∈ check_sequential_transactions clock df,
        a.transaction_id = cur.transaction_id ∧
        a.rule_name = "고위험 업종 이동 결제")
      ↔ (cur.transaction_dt - prev.transaction_dt ≤ 1800 * nsPerSecond ∧
          prev.mcc_code = "5812" ∧
          cur.mcc_code ∈ (["5813", "5814"] : List String)))
    ∧ ∀ a ∈ check_sequential_transactions clock df,
        a.transaction_id = cur.transaction_id →
        a.rule_name = "고위험 업종 이동 결제" →
          a.severity = "High" ∧
          a.detail = "이전 업종(" ++ prev.mcc_code ++ ")에서 현재 업종(" ++
            cur.mcc_code ++ ")으로 전환" := by
  have hcs : cur ∈ sortTx df := mem_withPrev_fst hmem
  have hchar : ∀ p ∈ check_sequential_transactions_pre df,
      p.transaction_id = cur.transaction_id →
      p.rule_name = "고위험 업종 이동 결제" →
      (cur.transaction_dt - prev.transaction_dt ≤ 1800 * nsPerSecond ∧
        prev.mcc_code = "5812" ∧
        cur.mcc_code ∈ (["5813", "5814"] : List String)) ∧
      p = ⟨cur.transaction_id, "고위험 업종 이동 결제", "High",
        "이전 업종(" ++ prev.mcc_code ++ ")에서 현재 업종(" ++
          cur.mcc_code ++ ")으로 전환"⟩ := by
    intro p hp htid hrule
    unfold check_sequential_transactions_pre at hp
    rcases List.mem_append.1 hp with hp1 | hp2
    · obtain ⟨q, hq, he⟩ := List.mem_filterMap.1 hp1
      obtain ⟨prev2, -, -, -, hpe⟩ := dupAlert?_eq_some he
      rw [hpe] at hrule
      have hne : ("동일 가맹점 연속 결제" : String) ≠ "고위험 업종 이동 결제" := by
        decide
      exact absurd hrule hne
    · obtain ⟨q, hq, he⟩ := List.mem_filterMap.1 hp2
      obtain ⟨prev2, hq2, hdelta, hmcc1, hmcc2, hpe⟩ := transAlert?_eq_some he
      have hq1s : q.1 ∈ sortTx df := mem_withPrev_fst hq
      have hptid : p.transaction_id = q.1.transaction_id :=
        congrArg PreAlert.transaction_id hpe
      have hq1c : q.1 = cur :=
        tid_unique (sortTx_nodup_tid hnd) hq1s hcs (hptid.symm.trans htid)
      have hq' : q = (cur, some prev2) := by
        rw [← hq1c, ← hq2]
      rw [hq'] at hq
      have hpp : prev2 = prev :=
        Option.some.inj (withPrev_snd_unique (sortTx_nodup hnd) hq hmem)
      rw [hq1c, hpp] at hdelta
      rw [hq1c] at hmcc2
      rw [hpp] at hmcc1
      rw [hq1c, hpp] at hpe
      exact ⟨⟨hdelta, hmcc1, hmcc2⟩, hpe⟩
  constructor
  · constructor
    · intro hex
      obtain ⟨p, hp, htid, hrule⟩ :=
        (stamp_exists clock (check_sequential_transactions_pre df)
          (fun p => p.transaction_id = cur.transaction_id ∧
            p.rule_name = "고위험 업종 이동 결제")).1 hex
      exact (hchar p hp htid hrule).1
    · intro hcond
      apply (stamp_exists clock (check_sequential_transactions_pre df)
        (fun p => p.transaction_id = cur.transaction_id ∧
          p.rule_name = "고위험 업종 이동 결제")).2
      refine ⟨⟨cur.transaction_id, "고위험 업종 이동 결제", "High",
        "이전 업종(" ++ prev.mcc_code ++ ")에서 현재 업종(" ++
          cur.mcc_code ++ ")으로 전환"⟩, ?_, rfl, rfl⟩
      unfold check_sequential_transactions_pre
      apply List.mem_append_right
      apply List.mem_filterMap.2
      exact ⟨(cur, some prev), hmem,
        transAlert?_pos hcond.1 hcond.2.1 hcond.2.2⟩
  · intro a ha htid hrule
    have h2 := hchar (eraseDt a) (mem_stamp_pre ha) htid hrule
    exact ⟨congrArg PreAlert.severity h2.2, congrArg PreAlert.detail h2.2⟩

/-- C7 witness: restaurant (5812) then bar (5813) for the same holder 29
minutes apart fires the transition alert on the later transaction, even
with a different holder's transaction in between in input order. -/
theorem category_transition_alert_iff_witness :
    ∃ a ∈ check_sequential_transactions (fun _ => 4)
        [⟨1, 100, 1766059200000000000, "REST", "5812", 10⟩,
         ⟨2, 200, 1766059800000000000, "X", "1111", 5⟩,
         ⟨3, 100, 1766060940000000000, "BAR", "5813", 7⟩],
      a.transaction_id = 3 ∧ a.rule_name = "고위험 업종 이동 결제" :=
  (category_transition_alert_iff (fun _ => 4)
      [⟨1, 100, 1766059200000000000, "REST", "5812", 10⟩,
       ⟨2, 200, 1766059800000000000, "X", "1111", 5⟩,
       ⟨3, 100, 1766060940000000000, "BAR", "5813", 7⟩]
      ⟨3, 100, 1766060940000000000, "BAR", "5813", 7⟩
      ⟨1, 100, 1766059200000000000, "REST", "5812", 10⟩
      (by decide) (by decide)).1.mpr (by decide)
